import Mathlib

/-!
Verification development for the Locutus combat-allocation core
(src/Steamhammer/Source/CombatCommander.cpp).

The definitions below are a shallow embedding of the C++ source.  External
collaborators (BWAPI rosters, BWTA regions, InformationManager, MapGrid) are
represented as explicit fields of the state records: each field carries the
value the corresponding external query would return on this tick.  Machine
integers are mod, where overflow cannot occur for the quantities involved,
embedded as Nat or Int.

The squad registry itself (SquadData / Squad) is implemented outside the
sources provided here; CombatCommander.cpp only calls it.  Definitions whose
doc comment starts with "Modelled from the spec:" embed those operations
following the specification text (section 4.1).
-/

namespace Locutus

/-- Unit types that appear in the embedded code paths of CombatCommander.cpp.
`other` stands for any type not distinguished by those code paths. -/
inductive UnitTypeE
  | probe | drone | scv
  | overlord | observer
  | zergling | hydralisk | marine | medic | vulture
  | siegeTankTankMode | siegeTankSiegeMode
  | zealot | dragoon | darkTemplar
  | shuttle
  | photonCannon | sunkenColony
  | reaver | lurker | guardian | highTemplar | mutalisk | larva
  | other
deriving DecidableEq, Repr

/-- BWAPI UnitType::isWorker for the types in scope. -/
def isWorkerT : UnitTypeE → Bool
  | .probe => true
  | .drone => true
  | .scv => true
  | _ => false

/-- BWAPI UnitType::isDetector for the types in scope. -/
def isDetectorT : UnitTypeE → Bool
  | .overlord => true
  | .observer => true
  | _ => false

/-- Map position, in pixels (BWAPI::Position). -/
def Pos : Type := Int × Int
deriving instance DecidableEq, Repr for Pos

/-- Squad priority constants, CombatCommander.cpp lines 12-17. -/
def IdlePriority : Nat := 0

/-- Squad priority of the main attack squads (line 13). -/
def AttackPriority : Nat := 1

/-- Squad priority of the recon squad (line 14). -/
def ReconPriority : Nat := 2

/-- Squad priority of the per-region base defense squads (line 15). -/
def BaseDefensePriority : Nat := 3

/-- Squad priority of the scout defense squad (line 16). -/
def ScoutDefensePriority : Nat := 4

/-- Squad priority of the drop squad (line 17).  The source comment reads
"don't steal from Drop squad for Defense squad". -/
def DropPriority : Nat := 5

/-- Attack squad radius constant (line 20). -/
def AttackRadius : Nat := 800

/-- Defensive position radius constant (line 21). -/
def DefensivePositionRadius : Nat := 400

/-- Modelled from the spec: SquadData::canAssignUnitToSquad is not among the
provided sources.  Section 4.1: "canAssign(agent, squad) -> true iff the agent
is not already a member of a squad with priority >= the requesting squad's
priority".  `cur` is the priority of the squad currently owning the agent
(none when the agent is unowned), `req` the requesting squad's priority. -/
def canAssignPrio (cur : Option Nat) (req : Nat) : Bool :=
  match cur with
  | none => true
  | some p => decide (p < req)

/-- The allocation policies invoked on a full allocation tick. -/
inductive PolicyE
  | idleFill | dropP | scoutDefenseP | baseDefenseP | reconP | mainAttackP
deriving DecidableEq, Repr

/-- Order in which CombatCommander::update calls the allocation policies when
frame8 == 1 (lines 89-97): updateIdleSquad, updateDropSquads,
updateScoutDefenseSquad, updateBaseDefenseSquads, updateReconSquad,
updateAttackSquads. -/
def allocationSequence : List PolicyE :=
  [.idleFill, .dropP, .scoutDefenseP, .baseDefenseP, .reconP, .mainAttackP]

/-- Claim C5 counterexample: the claim asserts that the Drop squad's numeric
priority is lower than the priorities of the attack and base-defense squads
and that priority comparison alone is not what protects its members.  In the
source the opposite holds: DropPriority is 5, strictly above both
BaseDefensePriority (3) and AttackPriority (1), so the plain priority
comparison is exactly what protects the Drop squad. -/
theorem C5_priority_counterexample :
    DropPriority = 5 ∧ BaseDefensePriority = 3 ∧ AttackPriority = 1 ∧
    ¬ DropPriority < BaseDefensePriority ∧ ¬ DropPriority < AttackPriority := by
  decide

/-- Claim C5 (amended): members of the Drop squad are never eligible for
reassignment by the base-defense policy (nor by the attack policies), and the
reason is the priority comparison itself: DropPriority (5) is higher than
BaseDefensePriority (3) and AttackPriority (1), so the admission check
canAssign rejects the transfer. -/
theorem C5_drop_protected :
    canAssignPrio (some DropPriority) BaseDefensePriority = false ∧
    canAssignPrio (some DropPriority) AttackPriority = false ∧
    canAssignPrio (some DropPriority) ScoutDefensePriority = false := by
  decide

/-- Claim C6 counterexample: the claim asserts that the idle-bucket policy is
applied after all other allocation policies within a full allocation tick.  In
CombatCommander::update the idle fill is the first policy of the sequence, not
the last. -/
theorem C6_idle_not_last :
    allocationSequence.head? = some PolicyE.idleFill ∧
    allocationSequence.getLast? ≠ some PolicyE.idleFill := by
  decide

/-! ### Squad registry (spec-modelled)

SquadData and Squad are implemented outside the provided sources; the model
below follows section 4.1 of the specification.  Agents are identified by
natural numbers, a registry is the list of squads in registry order. -/

/-- A squad in the registry: unique name, priority, membership set. -/
structure RSquad where
  sname : String
  priority : Nat
  members : List Nat
deriving DecidableEq, Repr

/-- Modelled from the spec: Squad membership insertion (Squad::addUnit is not
among the provided sources).  Insertion into a membership set; a no-op when
the agent is already a member ("no-op safe to call redundantly"). -/
def insertMember (a : Nat) (l : List Nat) : List Nat :=
  if a ∈ l then l else a :: l

/-- Modelled from the spec: removal of an agent from one squad's membership
set (Squad::removeUnit is not among the provided sources). -/
def squadErase (a : Nat) (s : RSquad) : RSquad :=
  { s with members := s.members.filter (fun b => b != a) }

/-- Modelled from the spec: the membership effect of
SquadData::assignUnitToSquad (section 4.1): "removes agent from its current
squad if any, inserts into target".  The registry traversal erases the agent
everywhere and inserts it into the first squad carrying the target name
(squad names are unique keys in the source's map). -/
def assignGo (a : Nat) (t : String) : List RSquad → List RSquad
  | [] => []
  | s :: rest =>
    if s.sname = t then
      { s with members := insertMember a (s.members.filter (fun b => b != a)) }
        :: rest.map (squadErase a)
    else
      squadErase a s :: assignGo a t rest

/-- Modelled from the spec: adding an agent to the membership set of the squad
with the given name (first match; names are unique keys). -/
def addToFirstNamed (n : String) (a : Nat) : List RSquad → List RSquad
  | [] => []
  | s :: rest =>
    if s.sname = n then { s with members := insertMember a s.members } :: rest
    else s :: addToFirstNamed n a rest

/-- Modelled from the spec: SquadData::canAssignUnitToSquad over a full
registry; true iff no squad of priority >= the requesting priority currently
contains the agent. -/
def canAssignM (r : List RSquad) (a : Nat) (req : Nat) : Bool :=
  r.all (fun s => !(decide (a ∈ s.members)) || decide (s.priority < req))

/-- The registry operations CombatCommander performs on squads:
`addSquad` (fatal if the name exists; modelled as a no-op because execution
halts), `assignUnit` (admission-checked transfer), `removeUnit`,
`clearSquad`, and `idleAdd` — the guarded `addUnit` call of
CombatCommander::updateIdleSquad (lines 110-121): add to the Idle squad only
when canAssign(unit, Idle) holds. -/
inductive RegOp
  | addSquad (sname : String) (priority : Nat)
  | assignUnit (agent : Nat) (target : String)
  | removeUnit (agent : Nat) (target : String)
  | clearSquad (sname : String)
  | idleAdd (agent : Nat)
deriving DecidableEq, Repr

/-- Modelled from the spec: one registry operation.  Operations on a
nonexistent squad name are fatal assertions in the source; they are modelled
as no-ops since execution halts there. -/
def applyOp (r : List RSquad) : RegOp → List RSquad
  | .addSquad n p =>
      if r.any (fun s => decide (s.sname = n)) then r else r ++ [⟨n, p, []⟩]
  | .assignUnit a t =>
      if r.any (fun s => decide (s.sname = t)) then assignGo a t r else r
  | .removeUnit a t =>
      r.map (fun s => if s.sname = t then squadErase a s else s)
  | .clearSquad n =>
      r.map (fun s => if s.sname = n then { s with members := [] } else s)
  | .idleAdd a =>
      if canAssignM r a IdlePriority then addToFirstNamed "Idle" a r else r

/-- Number of squads of the registry holding the given agent. -/
def memCount (r : List RSquad) (a : Nat) : Nat :=
  r.countP (fun s => decide (a ∈ s.members))

theorem not_mem_squadErase (a : Nat) (s : RSquad) : a ∉ (squadErase a s).members := by
  simp [squadErase, List.mem_filter]

theorem mem_squadErase_iff (a b : Nat) (s : RSquad) (h : b ≠ a) :
    b ∈ (squadErase a s).members ↔ b ∈ s.members := by
  simp [squadErase, List.mem_filter, h]

theorem mem_insertMember_self (a : Nat) (l : List Nat) : a ∈ insertMember a l := by
  unfold insertMember
  split
  case isTrue h => exact h
  case isFalse _ => exact List.mem_cons_self a l

theorem mem_insertMember_iff (a b : Nat) (l : List Nat) (h : b ≠ a) :
    b ∈ insertMember a l ↔ b ∈ l := by
  unfold insertMember
  split
  case isTrue _ => exact Iff.rfl
  case isFalse _ => simp [List.mem_cons, h]

theorem mem_insertMember_of_mem (a b : Nat) (l : List Nat) (h : b ∈ l) :
    b ∈ insertMember a l := by
  unfold insertMember
  split
  case isTrue _ => exact h
  case isFalse _ => exact List.mem_cons_of_mem a h

theorem memCount_map_erase_self (a : Nat) (l : List RSquad) :
    memCount (l.map (squadErase a)) a = 0 := by
  unfold memCount
  rw [List.countP_eq_zero]
  intro s hs
  rcases List.mem_map.mp hs with ⟨s0, _, rfl⟩
  simpa using not_mem_squadErase a s0

theorem memCount_assignGo_self (a : Nat) (t : String) (l : List RSquad) :
    memCount (assignGo a t l) a ≤ 1 := by
  induction l with
  | nil => simp [assignGo, memCount]
  | cons s rest ih =>
    unfold assignGo
    split
    case isTrue _ =>
      unfold memCount
      rw [List.countP_cons]
      have h0 : memCount (rest.map (squadErase a)) a = 0 := memCount_map_erase_self a rest
      unfold memCount at h0
      rw [h0]
      split <;> simp
    case isFalse _ =>
      unfold memCount
      rw [List.countP_cons]
      have he : a ∉ (squadErase a s).members := not_mem_squadErase a s
      have : (decide (a ∈ (squadErase a s).members)) = false := by
        simpa using he
      rw [this]
      simpa [memCount] using ih

theorem memCount_assignGo_other (a b : Nat) (t : String) (l : List RSquad) (h : b ≠ a) :
    memCount (assignGo a t l) b = memCount l b := by
  induction l with
  | nil => simp [assignGo]
  | cons s rest ih =>
    unfold assignGo
    split
    case isTrue _ =>
      unfold memCount
      rw [List.countP_cons, List.countP_cons, List.countP_map]
      have h1 : (decide (b ∈ insertMember a (s.members.filter (fun c => c != a))))
          = decide (b ∈ s.members) := by
        rw [decide_eq_decide]
        rw [mem_insertMember_iff a b _ h]
        simp [List.mem_filter, h]
      have h2 : ∀ s0 : RSquad,
          (decide (b ∈ (squadErase a s0).members)) = decide (b ∈ s0.members) := by
        intro s0
        rw [decide_eq_decide]
        exact mem_squadErase_iff a b s0 h
      rw [h1]
      congr 1
      apply List.countP_congr
      intro s0 _
      simp [Function.comp, h2 s0]
    case isFalse _ =>
      unfold memCount
      rw [List.countP_cons, List.countP_cons]
      have h2 : (decide (b ∈ (squadErase a s).members)) = decide (b ∈ s.members) := by
        rw [decide_eq_decide]
        exact mem_squadErase_iff a b s h
      rw [h2]
      unfold memCount at ih
      rw [ih]

theorem memCount_map_le (f : RSquad → RSquad) (b : Nat) (l : List RSquad)
    (h : ∀ s, b ∈ (f s).members → b ∈ s.members) :
    memCount (l.map f) b ≤ memCount l b := by
  unfold memCount
  rw [List.countP_map]
  apply List.countP_mono_left
  intro s _ hs
  have := h s (by simpa using hs)
  simpa using this

theorem memCount_addToFirstNamed_self (n : String) (a : Nat) (l : List RSquad) :
    memCount (addToFirstNamed n a l) a ≤ memCount l a + 1 := by
  induction l with
  | nil => simp [addToFirstNamed, memCount]
  | cons s rest ih =>
    unfold addToFirstNamed
    split
    case isTrue _ =>
      unfold memCount
      rw [List.countP_cons, List.countP_cons]
      split <;> split <;> omega
    case isFalse _ =>
      unfold memCount
      rw [List.countP_cons, List.countP_cons]
      unfold memCount at ih
      split <;> omega

theorem memCount_addToFirstNamed_other (n : String) (a b : Nat) (l : List RSquad)
    (h : b ≠ a) :
    memCount (addToFirstNamed n a l) b = memCount l b := by
  induction l with
  | nil => simp [addToFirstNamed]
  | cons s rest ih =>
    unfold addToFirstNamed
    split
    case isTrue _ =>
      unfold memCount
      rw [List.countP_cons, List.countP_cons]
      have h1 : (decide (b ∈ insertMember a s.members)) = decide (b ∈ s.members) := by
        rw [decide_eq_decide]
        exact mem_insertMember_iff a b s.members h
      rw [h1]
    case isFalse _ =>
      unfold memCount
      rw [List.countP_cons, List.countP_cons]
      unfold memCount at ih
      rw [ih]

theorem memCount_eq_zero_of_canAssign_idle (r : List RSquad) (a : Nat)
    (h : canAssignM r a IdlePriority = true) : memCount r a = 0 := by
  unfold memCount
  rw [List.countP_eq_zero]
  intro s hs
  have := List.all_eq_true.mp h s hs
  simp only [IdlePriority, Bool.or_eq_true, Bool.not_eq_true', decide_eq_true_eq,
    decide_eq_false_iff_not] at this
  rcases this with hmem | habs
  · simpa using hmem
  · omega

theorem applyOp_preserves_exclusivity (r : List RSquad) (op : RegOp)
    (h : ∀ b, memCount r b ≤ 1) : ∀ b, memCount (applyOp r op) b ≤ 1 := by
  intro b
  cases op with
  | addSquad n p =>
    simp only [applyOp]
    split
    · exact h b
    · unfold memCount
      rw [List.countP_append]
      have h1 : memCount r b ≤ 1 := h b
      unfold memCount at h1
      simpa using h1
  | assignUnit a t =>
    simp only [applyOp]
    split
    · by_cases hba : b = a
      · subst hba
        exact memCount_assignGo_self b t r
      · rw [memCount_assignGo_other a b t r hba]
        exact h b
    · exact h b
  | removeUnit a t =>
    simp only [applyOp]
    refine le_trans (memCount_map_le _ b r ?_) (h b)
    intro s hs
    by_cases hn : s.sname = t
    · simp only [hn, if_pos rfl] at hs
      by_cases hba : b = a
      · subst hba
        exact absurd hs (not_mem_squadErase b s)
      · exact (mem_squadErase_iff a b s hba).mp hs
    · simpa [hn] using hs
  | clearSquad n =>
    simp only [applyOp]
    refine le_trans (memCount_map_le _ b r ?_) (h b)
    intro s hs
    by_cases hn : s.sname = n
    · simp [hn] at hs
    · simpa [hn] using hs
  | idleAdd a =>
    simp only [applyOp]
    split
    next hguard =>
      by_cases hba : b = a
      · subst hba
        have h0 : memCount r b = 0 := memCount_eq_zero_of_canAssign_idle r b hguard
        have := memCount_addToFirstNamed_self "Idle" b r
        omega
      · rw [memCount_addToFirstNamed_other "Idle" a b r hba]
        exact h b
    next _ => exact h b

theorem foldl_applyOp_preserves (ops : List RegOp) (r : List RSquad)
    (h : ∀ b, memCount r b ≤ 1) : ∀ b, memCount (ops.foldl applyOp r) b ≤ 1 := by
  induction ops generalizing r with
  | nil => exact h
  | cons op rest ih =>
    exact ih (applyOp r op) (applyOp_preserves_exclusivity r op h)

/-- Claim C1: in every registry state reachable from the initial (empty)
registry by the operations CombatCommander performs — admission-checked
assignment (which removes the agent from its current squad before inserting
it into the target), the guarded idle add, squad creation, unit removal and
squad clearing — every agent is a member of at most one squad. -/
theorem C1_agent_in_at_most_one_squad (ops : List RegOp) (a : Nat) :
    memCount (ops.foldl applyOp []) a ≤ 1 := by
  apply foldl_applyOp_preserves
  intro b
  simp [memCount]

/-- CombatCommander::updateIdleSquad (lines 110-121): for every available
combat agent, if it can be assigned to the Idle squad (i.e. it is claimed by
no squad, since every priority is >= IdlePriority = 0) it is added to the
Idle squad. -/
def updateIdleSquadM (r : List RSquad) (combat : List Nat) : List RSquad :=
  combat.foldl (fun acc u => applyOp acc (RegOp.idleAdd u)) r

theorem addToFirstNamed_mem_mono (n : String) (a u : Nat) (l : List RSquad)
    (h : ∃ s ∈ l, u ∈ s.members) : ∃ s ∈ addToFirstNamed n a l, u ∈ s.members := by
  induction l with
  | nil => simp at h
  | cons s rest ih =>
    rcases h with ⟨s0, hs0, hu⟩
    unfold addToFirstNamed
    split
    · rcases List.mem_cons.mp hs0 with rfl | hrest
      · exact ⟨_, List.mem_cons_self _ _, mem_insertMember_of_mem a u _ hu⟩
      · exact ⟨s0, List.mem_cons_of_mem _ hrest, hu⟩
    · rcases List.mem_cons.mp hs0 with rfl | hrest
      · exact ⟨s0, List.mem_cons_self _ _, hu⟩
      · rcases ih ⟨s0, hrest, hu⟩ with ⟨s1, hs1, hu1⟩
        exact ⟨s1, List.mem_cons_of_mem _ hs1, hu1⟩

theorem addToFirstNamed_adds (n : String) (a : Nat) (l : List RSquad)
    (h : l.any (fun s => decide (s.sname = n)) = true) :
    ∃ s ∈ addToFirstNamed n a l, a ∈ s.members := by
  induction l with
  | nil => simp at h
  | cons s rest ih =>
    unfold addToFirstNamed
    split
    · exact ⟨_, List.mem_cons_self _ _, mem_insertMember_self a s.members⟩
    next hn =>
      have h2 : rest.any (fun s => decide (s.sname = n)) = true := by
        rcases List.any_eq_true.mp h with ⟨s0, hs0, hp⟩
        rcases List.mem_cons.mp hs0 with rfl | hrest
        · exact absurd (of_decide_eq_true hp) hn
        · exact List.any_eq_true.mpr ⟨s0, hrest, hp⟩
      rcases ih h2 with ⟨s1, hs1, hu1⟩
      exact ⟨s1, List.mem_cons_of_mem _ hs1, hu1⟩

theorem addToFirstNamed_name_preserved (n m : String) (a : Nat) (l : List RSquad)
    (h : l.any (fun s => decide (s.sname = m)) = true) :
    (addToFirstNamed n a l).any (fun s => decide (s.sname = m)) = true := by
  induction l with
  | nil => simp at h
  | cons s rest ih =>
    unfold addToFirstNamed
    rcases List.any_eq_true.mp h with ⟨s0, hs0, hp⟩
    split
    · rcases List.mem_cons.mp hs0 with rfl | hrest
      · exact List.any_eq_true.mpr ⟨_, List.mem_cons_self _ _, hp⟩
      · exact List.any_eq_true.mpr ⟨s0, List.mem_cons_of_mem _ hrest, hp⟩
    · rcases List.mem_cons.mp hs0 with rfl | hrest
      · exact List.any_eq_true.mpr ⟨s0, List.mem_cons_self _ _, hp⟩
      · have := ih (List.any_eq_true.mpr ⟨s0, hrest, hp⟩)
        rcases List.any_eq_true.mp this with ⟨s1, hs1, hp1⟩
        exact List.any_eq_true.mpr ⟨s1, List.mem_cons_of_mem _ hs1, hp1⟩

theorem idleAdd_mem_mono (r : List RSquad) (u v : Nat)
    (h : ∃ s ∈ r, u ∈ s.members) :
    ∃ s ∈ applyOp r (RegOp.idleAdd v), u ∈ s.members := by
  simp only [applyOp]
  split
  · exact addToFirstNamed_mem_mono "Idle" v u r h
  · exact h

theorem idleAdd_covers (r : List RSquad) (u : Nat)
    (hIdle : r.any (fun s => decide (s.sname = "Idle")) = true) :
    ∃ s ∈ applyOp r (RegOp.idleAdd u), u ∈ s.members := by
  simp only [applyOp]
  split
  · exact addToFirstNamed_adds "Idle" u r hIdle
  next hguard =>
    rcases List.all_eq_false.mp (Bool.eq_false_iff.mpr hguard) with ⟨s0, hs0, hp⟩
    refine ⟨s0, hs0, ?_⟩
    simp only [Bool.or_eq_true, Bool.not_eq_true', decide_eq_true_eq,
      decide_eq_false_iff_not, not_or, Bool.not_eq_false] at hp
    rcases hp with ⟨hmem, _⟩
    exact not_not.mp hmem

theorem idleAdd_idle_preserved (r : List RSquad) (v : Nat)
    (hIdle : r.any (fun s => decide (s.sname = "Idle")) = true) :
    (applyOp r (RegOp.idleAdd v)).any (fun s => decide (s.sname = "Idle")) = true := by
  simp only [applyOp]
  split
  · exact addToFirstNamed_name_preserved "Idle" "Idle" v r hIdle
  · exact hIdle

theorem updateIdleSquadM_mem_mono (combat : List Nat) (r : List RSquad) (u : Nat)
    (h : ∃ s ∈ r, u ∈ s.members) :
    ∃ s ∈ updateIdleSquadM r combat, u ∈ s.members := by
  induction combat generalizing r with
  | nil => exact h
  | cons c rest ih => exact ih _ (idleAdd_mem_mono r u c h)

/-- Claim C6 (amended): updateIdleSquad is the first policy of the full
allocation tick (not the last), and immediately after it runs every available
agent is a member of some squad: every agent claimed by no squad was added to
the Idle squad by the guarded add.  (Agents released by clears performed by
the later policies of the same tick may stay unowned until the next
allocation tick.) -/
theorem C6_idle_fill_covers_all (r : List RSquad) (combat : List Nat)
    (hIdle : r.any (fun s => decide (s.sname = "Idle")) = true)
    (u : Nat) (hu : u ∈ combat) :
    allocationSequence.head? = some PolicyE.idleFill ∧
    ∃ s ∈ updateIdleSquadM r combat, u ∈ s.members := by
  refine ⟨rfl, ?_⟩
  induction combat generalizing r with
  | nil => simp at hu
  | cons c rest ih =>
    rcases List.mem_cons.mp hu with rfl | hrest
    · exact updateIdleSquadM_mem_mono rest _ u (idleAdd_covers r u hIdle)
    · exact ih _ (idleAdd_idle_preserved r c hIdle) hrest

/-- Claim C6 witness: the amended theorem applied at a concrete registry
holding only an empty Idle squad and a roster of one agent. -/
theorem C6_idle_fill_witness :
    ([⟨"Idle", 0, []⟩] : List RSquad).any (fun s => decide (s.sname = "Idle")) = true ∧
    (7 : Nat) ∈ [7] ∧
    (allocationSequence.head? = some PolicyE.idleFill ∧
     ∃ s ∈ updateIdleSquadM [⟨"Idle", 0, []⟩] [7], 7 ∈ s.members) :=
  ⟨by decide, by decide, C6_idle_fill_covers_all [⟨"Idle", 0, []⟩] [7] (by decide) 7 (by decide)⟩

/-! ### Reconnaissance squad (CombatCommander::updateReconSquad, lines 127-259) -/

/-- A combat unit as seen by the recon policy: an id, its type and the
priority of the squad currently owning it (none = unowned).  The recon squad
consists of the units owned at ReconPriority; assignUnitToSquad moves a unit
by replacing its owner (remove-then-add in the registry). -/
structure RUnit where
  rid : Nat
  rtype : UnitTypeE
  owner : Option Nat
deriving DecidableEq, Repr

/-- CombatCommander::weighReconUnit (lines 268-282). -/
def weighReconUnit : UnitTypeE → Nat
  | .zergling => 2
  | .hydralisk => 3
  | .marine => 2
  | .medic => 2
  | .vulture => 4
  | .siegeTankTankMode => 6
  | .siegeTankSiegeMode => 6
  | .zealot => 4
  | .dragoon => 4
  | .darkTemplar => 4
  | _ => 0

/-- The local constant maxWeight of updateReconSquad (line 129). -/
def maxReconWeight : Nat := 12

/-- The units currently in the recon squad. -/
def reconMembers (combat : List RUnit) : List RUnit :=
  combat.filter (fun u => decide (u.owner = some ReconPriority))

/-- Squad::clear for the recon squad: every member becomes unowned (and may
be admitted again later in the same tick). -/
def clearRecon (combat : List RUnit) : List RUnit :=
  combat.map (fun u => if u.owner = some ReconPriority then { u with owner := none } else u)

/-- Sum of recon weights over a unit list (lines 149-163 and 173-179 both
accumulate weights this way). -/
def squadWeightOf (l : List RUnit) : Nat :=
  l.foldl (fun w u => w + weighReconUnit u.rtype) 0

/-- Count of units of one type in a list. -/
def countType (t : UnitTypeE) (l : List RUnit) : Nat :=
  l.countP (fun u => decide (u.rtype = t))

/-- The allowed weight of the recon squad (lines 181-188): 0 below available
weight 24, else 2 + (availableWeight - 24) / 6, clamped to maxWeight. -/
def reconWeightLimit (availableWeight : Nat) : Nat :=
  let w := if availableWeight ≥ 24 then 2 + (availableWeight - 24) / 6 else 0
  if w > maxReconWeight then maxReconWeight else w

/-- The first admission loop of updateReconSquad (lines 201-235): add units up
to the weight limit — no medics, few enough marines to allow for two medics,
and at most one detector, only when more than one detector is available
fleet-wide.  Returns the processed roster with the final squadWeight,
nMarines and hasDetector values; the loop breaks when squadWeight reaches the
limit. -/
def reconAddLoop (weightLimit availableDetectors : Nat) :
    List RUnit → Nat → Nat → Bool → List RUnit × Nat × Nat × Bool
  | [], squadWeight, nMarines, hasDetector => ([], squadWeight, nMarines, hasDetector)
  | u :: rest, squadWeight, nMarines, hasDetector =>
    if squadWeight ≥ weightLimit then (u :: rest, squadWeight, nMarines, hasDetector)
    else
      let weight := weighReconUnit u.rtype
      if 0 < weight ∧ squadWeight + weight ≤ weightLimit ∧
          canAssignPrio u.owner ReconPriority = true then
        if u.rtype = .marine then
          if nMarines * weight < maxReconWeight - 2 * weighReconUnit .medic then
            let r := reconAddLoop weightLimit availableDetectors rest
              (squadWeight + weight) (nMarines + 1) hasDetector
            ({ u with owner := some ReconPriority } :: r.1, r.2)
          else
            let r := reconAddLoop weightLimit availableDetectors rest
              squadWeight nMarines hasDetector
            (u :: r.1, r.2)
        else if u.rtype ≠ .medic then
          let r := reconAddLoop weightLimit availableDetectors rest
            (squadWeight + weight) nMarines hasDetector
          ({ u with owner := some ReconPriority } :: r.1, r.2)
        else
          let r := reconAddLoop weightLimit availableDetectors rest
            squadWeight nMarines hasDetector
          (u :: r.1, r.2)
      else if hasDetector = false ∧ 1 < availableDetectors ∧ isDetectorT u.rtype = true ∧
          canAssignPrio u.owner ReconPriority = true then
        let r := reconAddLoop weightLimit availableDetectors rest
          squadWeight nMarines true
        ({ u with owner := some ReconPriority } :: r.1, r.2)
      else
        let r := reconAddLoop weightLimit availableDetectors rest
          squadWeight nMarines hasDetector
        (u :: r.1, r.2)

/-- The medic top-up loop of updateReconSquad (lines 237-254): fill in medics
while nMedics < 2, stopping as soon as squadWeight >= weightLimit; note that
the loop tests only `squadWeight >= weightLimit` BEFORE adding a medic of
weight 2, so it may finish one unit above the limit. -/
def reconMedicLoop (weightLimit : Nat) :
    List RUnit → Nat → Nat → List RUnit × Nat × Nat
  | [], squadWeight, nMedics => ([], squadWeight, nMedics)
  | u :: rest, squadWeight, nMedics =>
    if squadWeight ≥ weightLimit ∨ nMedics ≥ 2 then (u :: rest, squadWeight, nMedics)
    else if u.rtype = .medic ∧ canAssignPrio u.owner ReconPriority = true then
      let r := reconMedicLoop weightLimit rest
        (squadWeight + weighReconUnit .medic) (nMedics + 1)
      ({ u with owner := some ReconPriority } :: r.1, r.2)
    else
      let r := reconMedicLoop weightLimit rest squadWeight nMedics
      (u :: r.1, r.2)

/-- State consumed by updateReconSquad: the posture flag, whether
chooseReconTarget left a valid target, and the combat roster in iteration
order. -/
structure ReconState where
  goAggressive : Bool
  reconTargetValid : Bool
  combat : List RUnit
deriving Repr

/-- CombatCommander::updateReconSquad (lines 127-259), returning the updated
roster; the recon squad afterwards is reconMembers of the result.  Target
choice (chooseReconTarget) only determines whether a valid target exists and
the final order position, and is carried as state. -/
def updateReconSquad (st : ReconState) : List RUnit :=
  if st.goAggressive = false then clearRecon st.combat
  else if st.reconTargetValid = false then clearRecon st.combat
  else
    let squad0 := reconMembers st.combat
    let squadWeight0 := squadWeightOf squad0
    let nMarines0 := countType .marine squad0
    let nMedics0 := countType .medic squad0
    let combat1 := if squadWeight0 = 0 ∧ squad0 ≠ [] then clearRecon st.combat else st.combat
    let availableWeight := squadWeightOf combat1
    let availableDetectors := combat1.countP (fun u => isDetectorT u.rtype)
    let weightLimit := reconWeightLimit availableWeight
    let doClear : Bool :=
      decide (squadWeight0 > weightLimit) || (decide (nMarines0 = 0) && decide (0 < nMedics0))
    let combat2 := if doClear then clearRecon combat1 else combat1
    let squadWeight1 := if doClear then 0 else squadWeight0
    let nMarines1 := if doClear then 0 else nMarines0
    let nMedics1 := if doClear then 0 else nMedics0
    let hasDetector0 := (reconMembers combat2).any (fun u => isDetectorT u.rtype)
    let r1 := reconAddLoop weightLimit availableDetectors combat2 squadWeight1 nMarines1 hasDetector0
    let r2 := if 0 < r1.2.2.1 ∧ nMedics1 < 2
      then reconMedicLoop weightLimit r1.1 r1.2.1 nMedics1
      else (r1.1, r1.2.1, nMedics1)
    r2.1

/-- The failing roster for claim C2: three hydralisks, one marine, one medic
and eighteen vultures, all unowned.  Total available weight is
3*3 + 2 + 2 + 18*4 = 85, so the weight limit is min(2 + 61/6, 12) = 12. -/
def c2Roster : List RUnit :=
  [⟨0, .hydralisk, none⟩, ⟨1, .hydralisk, none⟩, ⟨2, .hydralisk, none⟩,
   ⟨3, .marine, none⟩, ⟨4, .medic, none⟩]
  ++ (List.range 18).map (fun i => ⟨5 + i, .vulture, none⟩)

/-- Claim C2 (code bug): the recon squad's admitted weight is supposed never
to exceed the cap (the source's own comment at lines 125-126 says "Weights
sum to no more than maxWeight"), and the cap formula itself is as claimed
(0 below 24; 2 + (available-24)/6 clamped to 12; available weight 30 gives
cap 3).  But on the roster above — aggressive posture, valid recon target,
empty squad — the admission loop stops at weight 11 (three hydralisks and a
marine) and the medic top-up loop then admits a medic after testing only
`squadWeight >= weightLimit`, ending at weight 13 > 12 = cap = maxWeight. -/
theorem C2_recon_weight_cap_violated :
    squadWeightOf c2Roster = 85 ∧
    reconWeightLimit 85 = 12 ∧
    reconWeightLimit 30 = 3 ∧
    reconWeightLimit 23 = 0 ∧
    squadWeightOf (reconMembers (updateReconSquad ⟨true, true, c2Roster⟩)) = 13 := by
  decide

/-! ### Drop squad protocol (CombatCommander::updateDropSquads, lines 532-628) -/

/-- SquadOrderTypes in scope. -/
inductive OrderType
  | idleOrd | attackOrd | defendOrd | holdOrd | holdWallOrd | loadOrd | dropOrd
deriving DecidableEq, Repr

/-- A squad order: type, position, radius, status label. -/
structure SquadOrderM where
  otype : OrderType
  pos : Pos
  radius : Nat
  label : String
deriving DecidableEq, Repr

/-- A unit as seen by the drop policy: id, type, and the BWAPI attributes the
code queries — exists, isFlying, spaceProvided, spaceRequired, isLoaded,
position — plus the owning squad's priority for the admission check. -/
structure DUnit where
  did : Nat
  dtype : UnitTypeE
  uexists : Bool
  flying : Bool
  spaceProvided : Nat
  spaceRequired : Nat
  loaded : Bool
  pos : Pos
  owner : Option Nat
deriving DecidableEq, Repr

/-- CombatCommander::unitIsGoodToDrop (lines 1137-1142). -/
def unitIsGoodToDrop (u : DUnit) : Bool :=
  decide (u.dtype = .darkTemplar) || decide (u.dtype = .vulture)

/-- One step of the scan over the drop squad's units (the loop body of lines
566-583): an existing flying space-provider becomes the transport; every
other existing unit consumes its required space from the transport spots and
flags anyUnloadedUnits when not boarded. -/
def scanStep (acc : Option DUnit × Int × Bool) (u : DUnit) : Option DUnit × Int × Bool :=
  if u.uexists = true then
    if u.flying = true ∧ 0 < u.spaceProvided then (some u, acc.2.1, acc.2.2)
    else (acc.1, acc.2.1 - (u.spaceRequired : Int), acc.2.2 || !u.loaded)
  else acc

/-- The scan over the drop squad's units (lines 560-583), starting from no
transport and 8 spots ("all transports are the same size"). -/
def scanDrop (units : List DUnit) : Option DUnit × Int × Bool :=
  units.foldl scanStep (none, 8, false)

/-- Total cargo space required by the existing non-transport members. -/
def dropSpaceSum : List DUnit → Nat
  | [] => 0
  | u :: l =>
    (if u.uexists = true ∧ ¬(u.flying = true ∧ 0 < u.spaceProvided) then u.spaceRequired else 0)
      + dropSpaceSum l

/-- Does some existing non-transport member remain unboarded? -/
def existsUnboarded (l : List DUnit) : Bool :=
  l.any (fun u => u.uexists && !(u.flying && decide (0 < u.spaceProvided)) && !u.loaded)

/-- Does the squad hold an existing flying space-provider (a transport)? -/
def hasTransportU (l : List DUnit) : Bool :=
  l.any (fun u => u.uexists && u.flying && decide (0 < u.spaceProvided))

/-- The recruitment loop of updateDropSquads (lines 602-627): add a transport
if absent, then units that fit the remaining spots and are good to drop,
subject to the admission check.  Returns the processed roster and the
recruited units in order. -/
def dropRecruitLoop : List DUnit → Bool → Int → List DUnit × List DUnit
  | [], _, _ => ([], [])
  | u :: rest, hasTransport, spots =>
    if hasTransport = false ∧ 0 < u.spaceProvided ∧ u.flying = true ∧
        canAssignPrio u.owner DropPriority = true then
      let u2 := { u with owner := some DropPriority }
      let r := dropRecruitLoop rest true spots
      (u2 :: r.1, u2 :: r.2)
    else if (u.spaceRequired : Int) ≤ spots ∧ unitIsGoodToDrop u = true ∧
        canAssignPrio u.owner DropPriority = true then
      let u2 := { u with owner := some DropPriority }
      let r := dropRecruitLoop rest hasTransport (spots - (u.spaceRequired : Int))
      (u2 :: r.1, u2 :: r.2)
    else
      let r := dropRecruitLoop rest hasTransport spots
      (u :: r.1, r.2)

/-- State consumed by updateDropSquads: whether the "Drop" squad exists, its
current order, its members, the combat roster, and the position
getDropLocation would return (an external-information waterfall: enemy main,
else a remembered enemy building, else the least-explored location). -/
structure DropState where
  dropSquadExists : Bool
  order : SquadOrderM
  squadUnits : List DUnit
  combat : List DUnit
  dropLocation : Pos
deriving DecidableEq, Repr

/-- CombatCommander::updateDropSquads (lines 532-628).  If the squad has
already been ordered to Drop the function returns without changes; otherwise
with a transport and exactly-filled capacity it orders Load (when someone is
still unboarded) or Drop (when everyone is boarded); otherwise it recruits. -/
def updateDropSquads (st : DropState) : DropState :=
  if st.dropSquadExists = false then st
  else if st.order.otype = .dropOrd then st
  else
    let scan := scanDrop st.squadUnits
    match scan.1 with
    | some t =>
      if scan.2.1 = 0 then
        if scan.2.2 = true then
          { st with order := ⟨.loadOrd, t.pos, AttackRadius, "Load up"⟩ }
        else
          { st with order := ⟨.dropOrd, st.dropLocation, 300, "Go drop!"⟩ }
      else
        let r := dropRecruitLoop st.combat true scan.2.1
        { st with combat := r.1, squadUnits := st.squadUnits ++ r.2 }
    | none =>
      let r := dropRecruitLoop st.combat false scan.2.1
      { st with combat := r.1, squadUnits := st.squadUnits ++ r.2 }

/-- Rank of an order type in the drop protocol Hold (Collecting) -> Load
(Loading) -> Drop (Dropped). -/
def dropRank : OrderType → Nat
  | .dropOrd => 2
  | .loadOrd => 1
  | _ => 0

/-- Claim C3: across ticks the drop squad's directive kind only moves forward
through Hold -> Load -> Drop, never backward: a single updateDropSquads step
never decreases the rank of the directive kind, and once the directive is
Drop the whole state is returned unchanged (terminal, no reset path). -/
theorem C3_drop_protocol_monotone (st : DropState) :
    dropRank st.order.otype ≤ dropRank (updateDropSquads st).order.otype ∧
    (st.order.otype = .dropOrd → updateDropSquads st = st) := by
  constructor
  · unfold updateDropSquads
    split
    · exact le_refl _
    · split
      next hdrop =>
        exact le_refl _
      next hdrop =>
        rcases hscan : (scanDrop st.squadUnits).1 with _ | t
        · simp only [hscan]
          exact le_refl _
        · simp only [hscan]
          split
          · split
            · cases h : st.order.otype <;> simp_all [dropRank]
            · cases h : st.order.otype <;> simp_all [dropRank]
          · exact le_refl _
  · intro h
    unfold updateDropSquads
    split
    · rfl
    · simp [h]

/-- Claim C3 witness: the theorem applied at a squad already ordered to
Drop; the step leaves the state unchanged. -/
theorem C3_drop_terminal_witness :
    dropRank (⟨true, ⟨.dropOrd, (0, 0), 300, "Go drop!"⟩, [], [], (0, 0)⟩ : DropState).order.otype
      ≤ dropRank (updateDropSquads ⟨true, ⟨.dropOrd, (0, 0), 300, "Go drop!"⟩, [], [], (0, 0)⟩).order.otype ∧
    updateDropSquads ⟨true, ⟨.dropOrd, (0, 0), 300, "Go drop!"⟩, [], [], (0, 0)⟩
      = ⟨true, ⟨.dropOrd, (0, 0), 300, "Go drop!"⟩, [], [], (0, 0)⟩ :=
  ⟨(C3_drop_protocol_monotone _).1, (C3_drop_protocol_monotone _).2 rfl⟩

theorem scan_foldl_spots (l : List DUnit) :
    ∀ acc : Option DUnit × Int × Bool,
      (l.foldl scanStep acc).2.1 = acc.2.1 - (dropSpaceSum l : Int) := by
  induction l with
  | nil => intro acc; simp [dropSpaceSum]
  | cons u l ih =>
    intro acc
    rw [List.foldl_cons, ih]
    by_cases he : u.uexists = true
    · by_cases hf : u.flying = true ∧ 0 < u.spaceProvided
      · rw [show scanStep acc u = (some u, acc.2.1, acc.2.2) from by
          simp [scanStep, he, hf]]
        rw [show dropSpaceSum (u :: l) = dropSpaceSum l from by
          simp [dropSpaceSum, hf]]
      · rw [show scanStep acc u
            = (acc.1, acc.2.1 - (u.spaceRequired : Int), acc.2.2 || !u.loaded) from by
          simp [scanStep, he, hf]]
        rw [show dropSpaceSum (u :: l) = u.spaceRequired + dropSpaceSum l from by
          simp [dropSpaceSum, he, hf]]
        push_cast
        ring
    · rw [show scanStep acc u = acc from by simp [scanStep, he]]
      rw [show dropSpaceSum (u :: l) = dropSpaceSum l from by
        simp [dropSpaceSum, he]]

theorem scan_foldl_unloaded (l : List DUnit) :
    ∀ acc : Option DUnit × Int × Bool,
      (l.foldl scanStep acc).2.2 = (acc.2.2 || existsUnboarded l) := by
  induction l with
  | nil => intro acc; simp [existsUnboarded]
  | cons u l ih =>
    intro acc
    rw [List.foldl_cons, ih]
    by_cases he : u.uexists = true
    · by_cases hf : u.flying = true ∧ 0 < u.spaceProvided
      · rw [show scanStep acc u = (some u, acc.2.1, acc.2.2) from by
          simp [scanStep, he, hf]]
        rw [show existsUnboarded (u :: l) = existsUnboarded l from by
          simp [existsUnboarded, hf.1, hf.2]]
      · have hflprov : (u.flying && decide (0 < u.spaceProvided)) = false := by
          rcases Decidable.not_and_iff_or_not.mp hf with hfl | hsp
          · simp [Bool.eq_false_iff.mpr hfl]
          · simp [Nat.not_lt.mp (fun hs => hsp hs)]
        rw [show scanStep acc u
            = (acc.1, acc.2.1 - (u.spaceRequired : Int), acc.2.2 || !u.loaded) from by
          simp [scanStep, he, hf]]
        rw [show existsUnboarded (u :: l) = (!u.loaded || existsUnboarded l) from by
          simp only [existsUnboarded, List.any_cons, he, hflprov, Bool.not_false,
            Bool.true_and]]
        exact Bool.or_assoc _ _ _
    · have hue : u.uexists = false := Bool.eq_false_iff.mpr he
      rw [show scanStep acc u = acc from by simp [scanStep, he]]
      rw [show existsUnboarded (u :: l) = existsUnboarded l from by
        simp [existsUnboarded, hue]]

theorem scan_foldl_transport (l : List DUnit) :
    ∀ acc : Option DUnit × Int × Bool,
      (l.foldl scanStep acc).1.isSome = (acc.1.isSome || hasTransportU l) := by
  induction l with
  | nil => intro acc; simp [hasTransportU]
  | cons u l ih =>
    intro acc
    rw [List.foldl_cons, ih]
    by_cases he : u.uexists = true
    · by_cases hf : u.flying = true ∧ 0 < u.spaceProvided
      · rw [show scanStep acc u = (some u, acc.2.1, acc.2.2) from by
          simp [scanStep, he, hf]]
        rw [show hasTransportU (u :: l) = true from by
          simp [hasTransportU, List.any_cons, he, hf.1, hf.2]]
        simp
      · have hflprov : (u.flying && decide (0 < u.spaceProvided)) = false := by
          rcases Decidable.not_and_iff_or_not.mp hf with hfl | hsp
          · simp [Bool.eq_false_iff.mpr hfl]
          · simp [Nat.not_lt.mp (fun hs => hsp hs)]
        rw [show scanStep acc u
            = (acc.1, acc.2.1 - (u.spaceRequired : Int), acc.2.2 || !u.loaded) from by
          simp [scanStep, he, hf]]
        rw [show hasTransportU (u :: l) = hasTransportU l from by
          simp [hasTransportU, List.any_cons, Bool.and_assoc, hflprov]]
    · have hue : u.uexists = false := Bool.eq_false_iff.mpr he
      rw [show scanStep acc u = acc from by simp [scanStep, he]]
      rw [show hasTransportU (u :: l) = hasTransportU l from by
        simp [hasTransportU, List.any_cons, hue]]

/-- Claim C4: if the drop squad holds a transport (an existing flying
space-provider) and its existing non-transport members' required cargo space
sums to exactly the fixed capacity of 8, every such member is boarded, and the
squad has not yet been ordered to Drop, then updateDropSquads orders Drop on
this same tick. -/
theorem C4_full_boarded_goes_drop (st : DropState)
    (hex : st.dropSquadExists = true)
    (hord : st.order.otype ≠ .dropOrd)
    (htr : hasTransportU st.squadUnits = true)
    (hsum : dropSpaceSum st.squadUnits = 8)
    (hboard : existsUnboarded st.squadUnits = false) :
    (updateDropSquads st).order.otype = .dropOrd := by
  have hspots : (scanDrop st.squadUnits).2.1 = 0 := by
    unfold scanDrop
    rw [scan_foldl_spots, hsum]
    norm_num
  have hunl : (scanDrop st.squadUnits).2.2 = false := by
    unfold scanDrop
    rw [scan_foldl_unloaded, hboard]
    simp
  have hsome : (scanDrop st.squadUnits).1.isSome = true := by
    unfold scanDrop
    rw [scan_foldl_transport, htr]
    simp
  rcases Option.isSome_iff_exists.mp hsome with ⟨t, ht⟩
  unfold updateDropSquads
  rw [if_neg (by simp [hex]), if_neg hord]
  simp only [ht, hspots, hunl]
  simp

/-- A shuttle for the C4 witness: exists, flying, provides 8 cargo spots. -/
def c4Shuttle : DUnit := ⟨0, .shuttle, true, true, 8, 2, false, (0, 0), some DropPriority⟩

/-- A boarded dark templar of space cost 2 for the C4 witness. -/
def c4DT (i : Nat) : DUnit := ⟨i, .darkTemplar, true, false, 0, 2, true, (0, 0), some DropPriority⟩

/-- The C4 witness state: a drop squad ordered Hold, holding a transport and
four boarded melee agents of space cost 2 each (exactly 8). -/
def c4State : DropState :=
  ⟨true, ⟨.holdOrd, (0, 0), 800, "Wait for transport"⟩,
   [c4Shuttle, c4DT 1, c4DT 2, c4DT 3, c4DT 4], [], (5, 5)⟩

/-- Claim C4 witness: the theorem applied at the concrete full, boarded drop
squad; the directive kind becomes Drop on this tick. -/
theorem C4_full_boarded_witness :
    dropSpaceSum c4State.squadUnits = 8 ∧
    existsUnboarded c4State.squadUnits = false ∧
    (updateDropSquads c4State).order.otype = .dropOrd :=
  ⟨by decide, by decide,
   C4_full_boarded_goes_drop c4State (by decide) (by decide) (by decide) (by decide) (by decide)⟩

/-! ### Base defense defender need (CombatCommander::updateBaseDefenseSquads,
lines 821-886) -/

/-- An enemy unit in a defended region: its type and flight state. -/
structure EUnit where
  etype : UnitTypeE
  flying : Bool
deriving DecidableEq, Repr

/-- The per-threat ground contribution (lines 835-844): worker 1, zergling 2,
hydralisk or marine 3, zealot 5, everything else 6. -/
def groundThreatWeight (t : UnitTypeE) : Nat :=
  if isWorkerT t then 1
  else if t = .zergling then 2
  else if t = .hydralisk ∨ t = .marine then 3
  else if t = .zealot then 5
  else 6

/-- The weighted threat sum over the non-flying enemy units in the region
(lines 828-845; flying units are skipped by the loop). -/
def groundThreatSum (enemies : List EUnit) : Nat :=
  enemies.foldl (fun acc u => if u.flying then acc else acc + groundThreatWeight u.etype) 0

/-- Ceiling of 1.2 times s (line 854, std::ceil(groundDefendersNeeded * 1.2)).
For every int count s >= 0 the double computation equals the exact rational
ceiling of 6s/5: the double nearest 1.2 is slightly below 6/5, so the product
with an integer s never crosses up over an integer boundary, and rounding to
nearest cannot carry it past the exact multiple either.  Embedded exactly. -/
def ceil12 (s : Nat) : Nat := (6 * s + 4) / 5

/-- A friendly structure as inspected by the static-defense discount loops:
type, completion, power, whether it sits in the region, and its distance to
the defense squad's order position. -/
structure StaticDef where
  stype : UnitTypeE
  completed : Bool
  powered : Bool
  inRegion : Bool
  distToOrder : Nat
deriving DecidableEq, Repr

/-- Qualification as static anti-ground defense (lines 874-885): a completed,
powered photon cannon or sunken colony located in the region or within 500 of
the order position.  Bunkers are ignored by the source. -/
def countsAsGroundStatic (s : StaticDef) : Bool :=
  (decide (s.stype = .photonCannon) || decide (s.stype = .sunkenColony)) &&
  s.completed && s.powered && (s.inRegion || decide (s.distToOrder < 500))

/-- Ground defenders needed for a region (lines 828-886): the weighted threat
sum, scaled by ceil(1.2 ×), minus 6 per qualifying static ground defense,
clamped at 0 (line 886, std::max(groundDefendersNeeded, 0)). -/
def groundDefendersNeeded (enemies : List EUnit) (myUnits : List StaticDef) : Nat :=
  (max (myUnits.foldl (fun acc s => if countsAsGroundStatic s then acc - 6 else acc)
      ((ceil12 (groundThreatSum enemies) : Int))) 0).toNat

theorem staticDiscount_foldl (l : List StaticDef) :
    ∀ b : Int,
      l.foldl (fun acc s => if countsAsGroundStatic s then acc - 6 else acc) b
        = b - 6 * (l.countP countsAsGroundStatic : Int) := by
  induction l with
  | nil => intro b; simp
  | cons s l ih =>
    intro b
    rw [List.foldl_cons, ih]
    by_cases h : countsAsGroundStatic s = true
    · rw [if_pos h, List.countP_cons_of_pos _ _ h]
      push_cast
      ring
    · rw [if_neg h, List.countP_cons_of_neg _ _ h]

theorem groundThreatSum_foldl (l : List EUnit) :
    ∀ b : Nat,
      l.foldl (fun acc u => if u.flying then acc else acc + groundThreatWeight u.etype) b
        = b + groundThreatSum l := by
  induction l with
  | nil => intro b; simp [groundThreatSum]
  | cons u l ih =>
    intro b
    unfold groundThreatSum
    rw [List.foldl_cons, List.foldl_cons, ih, ih]
    by_cases h : u.flying = true
    · rw [if_pos h, if_pos h]
      omega
    · rw [if_neg h, if_neg h]
      omega

theorem groundThreatSum_replicate_probe (n : Nat) :
    groundThreatSum (List.replicate n ⟨.probe, false⟩) = n := by
  induction n with
  | zero => rfl
  | succ n ih =>
    rw [List.replicate_succ]
    unfold groundThreatSum
    rw [List.foldl_cons, groundThreatSum_foldl, ih]
    simp [groundThreatWeight, isWorkerT, Nat.add_comm]

/-- Claim C7: for each defended region the ground defender need equals
max(0, ceil(1.2 × S) − 6k) where S weighs each non-flying threat as 1 for a
worker, 2 for a zergling, 3 for a hydralisk or marine, 5 for a zealot and 6
otherwise, and k counts completed powered static anti-ground structures in
the region or within 500 of the order position; a worker-only region needs
exactly ceil(1.2 × count), and each additional qualifying anti-ground
structure lowers the need by exactly 6, floored at 0. -/
theorem C7_ground_defender_need (enemies : List EUnit) (myUnits : List StaticDef)
    (n : Nat) (s : StaticDef) (hs : countsAsGroundStatic s = true) :
    groundDefendersNeeded enemies myUnits
      = (max ((ceil12 (groundThreatSum enemies) : Int)
          - 6 * (myUnits.countP countsAsGroundStatic : Int)) 0).toNat ∧
    groundThreatWeight .probe = 1 ∧ groundThreatWeight .zergling = 2 ∧
    groundThreatWeight .hydralisk = 3 ∧ groundThreatWeight .marine = 3 ∧
    groundThreatWeight .zealot = 5 ∧ groundThreatWeight .dragoon = 6 ∧
    groundDefendersNeeded (List.replicate n ⟨.probe, false⟩) [] = ceil12 n ∧
    groundDefendersNeeded enemies (s :: myUnits)
      = groundDefendersNeeded enemies myUnits - 6 := by
  refine ⟨?_, rfl, rfl, rfl, rfl, rfl, rfl, ?_, ?_⟩
  · unfold groundDefendersNeeded
    rw [staticDiscount_foldl]
  · unfold groundDefendersNeeded
    rw [staticDiscount_foldl, groundThreatSum_replicate_probe]
    simp
  · unfold groundDefendersNeeded
    rw [staticDiscount_foldl, staticDiscount_foldl,
      List.countP_cons_of_pos _ _ hs]
    push_cast
    omega

/-- A qualifying photon cannon for the C7 witness. -/
def c7Cannon : StaticDef := ⟨.photonCannon, true, true, true, 0⟩

/-- Claim C7 witness: the theorem applied at a region holding one zealot
threat, no prior static defense, a worker count of 5 and the concrete
qualifying cannon. -/
theorem C7_ground_defender_need_witness :
    countsAsGroundStatic c7Cannon = true ∧
    (groundDefendersNeeded [⟨.zealot, false⟩] []
        = (max ((ceil12 (groundThreatSum [⟨.zealot, false⟩]) : Int)
            - 6 * (([] : List StaticDef).countP countsAsGroundStatic : Int)) 0).toNat ∧
     groundThreatWeight .probe = 1 ∧ groundThreatWeight .zergling = 2 ∧
     groundThreatWeight .hydralisk = 3 ∧ groundThreatWeight .marine = 3 ∧
     groundThreatWeight .zealot = 5 ∧ groundThreatWeight .dragoon = 6 ∧
     groundDefendersNeeded (List.replicate 5 ⟨.probe, false⟩) [] = ceil12 5 ∧
     groundDefendersNeeded [⟨.zealot, false⟩] [c7Cannon]
        = groundDefendersNeeded [⟨.zealot, false⟩] [] - 6) :=
  ⟨by decide, C7_ground_defender_need [⟨.zealot, false⟩] [] 5 c7Cannon (by decide)⟩

/-! ### Scout defense (CombatCommander::updateScoutDefenseSquad, lines
630-688) -/

/-- An enemy unit as seen by the scout defense policy: its type and whether
BWTA places it inside the home region. -/
structure SEUnit where
  etype : UnitTypeE
  inMyRegion : Bool
deriving DecidableEq, Repr

/-- A friendly combat unit as seen by the scout defense policy. -/
structure SFUnit where
  ftype : UnitTypeE
  inMyRegion : Bool
  owner : Option Nat
deriving DecidableEq, Repr

/-- State consumed by updateScoutDefenseSquad: the configured radius, the
combat roster, the current squad membership, validity of the home region and
its center, the enemy roster, the frame counter and the recorded frame of the
last enemy worker attack (0 when never recorded; both are C++ ints). -/
structure ScoutState where
  scoutDefenseRadius : Nat
  combat : List SFUnit
  squadUnits : List SFUnit
  myRegionValid : Bool
  enemyUnits : List SEUnit
  frame : Int
  enemyWorkerAttackedAt : Int
deriving DecidableEq, Repr

/-- The loop predicate of lines 652-664: an enemy unit in the home region
disables the chase when it is not an overlord and is either a non-worker or a
worker while an enemy worker attack was recorded within the last 120 frames. -/
def scoutChaseBlocker (attackedAt frame : Int) (u : SEUnit) : Bool :=
  u.inMyRegion && !(decide (u.etype = UnitTypeE.overlord)) &&
    (!(isWorkerT u.etype) || decide (attackedAt > frame - 120))

/-- CombatCommander::updateScoutDefenseSquad (lines 630-688), returning the
squad membership afterwards.  Chase is enabled unless some enemy unit blocks
it; when disabled the squad is cleared; when enabled and the squad is empty,
the first assignable dragoon inside the home region is recruited. -/
def updateScoutDefenseSquad (st : ScoutState) : List SFUnit :=
  if st.scoutDefenseRadius = 0 ∨ st.combat = [] then st.squadUnits
  else if st.myRegionValid = false then st.squadUnits
  else if st.enemyUnits.any (scoutChaseBlocker st.enemyWorkerAttackedAt st.frame) then []
  else if st.squadUnits = [] then
    match st.combat.find? (fun u =>
        decide (u.ftype = UnitTypeE.dragoon) && u.inMyRegion &&
        canAssignPrio u.owner ScoutDefensePriority) with
    | some u => [u]
    | none => st.squadUnits
  else st.squadUnits

/-- Claim C8: if the only enemy unit in the home region is a single worker
and no enemy worker attack was recorded within the last 120 frames, the chase
stays enabled: a nonempty scout-defense squad is left untouched, and an empty
one recruits exactly the first assignable ranged ground agent (dragoon) found
in the home region. -/
theorem C8_lone_worker_scout_chased (st : ScoutState) (w : SEUnit) (d : SFUnit)
    (hrad : st.scoutDefenseRadius ≠ 0)
    (hcombat : st.combat ≠ [])
    (hreg : st.myRegionValid = true)
    (hw : st.enemyUnits.filter (fun u => u.inMyRegion) = [w])
    (hwworker : isWorkerT w.etype = true)
    (hnotatk : ¬ st.enemyWorkerAttackedAt > st.frame - 120)
    (hfind : st.combat.find? (fun u =>
        decide (u.ftype = UnitTypeE.dragoon) && u.inMyRegion &&
        canAssignPrio u.owner ScoutDefensePriority) = some d) :
    (st.squadUnits ≠ [] → updateScoutDefenseSquad st = st.squadUnits) ∧
    (st.squadUnits = [] → updateScoutDefenseSquad st = [d]) := by
  have hwnotov : decide (w.etype = UnitTypeE.overlord) = false := by
    rcases w with ⟨t, r⟩
    cases t <;> simp_all [isWorkerT]
  have hchase :
      st.enemyUnits.any (scoutChaseBlocker st.enemyWorkerAttackedAt st.frame) = false := by
    rw [List.any_eq_false]
    intro u hu
    by_cases hin : u.inMyRegion = true
    · have humem : u ∈ st.enemyUnits.filter (fun u => u.inMyRegion) :=
        List.mem_filter.mpr ⟨hu, by simpa using hin⟩
      rw [hw] at humem
      have huw : u = w := by simpa using humem
      subst huw
      simp [scoutChaseBlocker, hwworker, hwnotov, decide_eq_false hnotatk]
    · have hin0 : u.inMyRegion = false := Bool.eq_false_iff.mpr hin
      simp [scoutChaseBlocker, hin0]
  have hcond1 : ¬(st.scoutDefenseRadius = 0 ∨ st.combat = []) := by
    rw [not_or]
    exact ⟨hrad, hcombat⟩
  have hcond2 : ¬(st.myRegionValid = false) := by simp [hreg]
  constructor
  · intro hne
    unfold updateScoutDefenseSquad
    rw [if_neg hcond1, if_neg hcond2, if_neg (by simp [hchase]), if_neg hne]
  · intro hemp
    unfold updateScoutDefenseSquad
    rw [if_neg hcond1, if_neg hcond2, if_neg (by simp [hchase]), if_pos hemp, hfind]

/-- The lone non-attacking enemy worker for the C8 witness. -/
def c8Worker : SEUnit := ⟨.probe, true⟩

/-- The assignable dragoon in the home region for the C8 witness. -/
def c8Dragoon : SFUnit := ⟨.dragoon, true, none⟩

/-- The C8 witness state: radius 400, one free dragoon in the region, empty
squad, valid region, the lone enemy worker, frame 1000, no recorded worker
attack. -/
def c8State : ScoutState := ⟨400, [c8Dragoon], [], true, [c8Worker], 1000, 0⟩

/-- Claim C8 witness: the theorem applied at the concrete state; the empty
squad recruits exactly the dragoon. -/
theorem C8_lone_worker_witness :
    isWorkerT c8Worker.etype = true ∧
    updateScoutDefenseSquad c8State = [c8Dragoon] :=
  ⟨by decide,
   (C8_lone_worker_scout_chased c8State c8Worker c8Dragoon (by decide) (by decide)
      (by decide) (by decide) (by decide) (by decide) (by decide)).2 (by decide)⟩

/-! ### Main attack squads under a defensive posture
(CombatCommander::updateAttackSquads, lines 458-496) -/

/-- State consumed by the defensive branch: existence and ownership of the
natural expansion, the base positions, and the defensive wall lookup. -/
structure DefenseOrderState where
  naturalExists : Bool
  naturalOwnedByMe : Bool
  naturalPos : Pos
  mainPos : Pos
  wallExists : Bool
  wallGapCenter : Pos
deriving DecidableEq, Repr

/-- The defensive branch of CombatCommander::updateAttackSquads (lines
466-496): the defend position is the natural if owned, else the main base;
with a wall it becomes the wall's gap center and the radius is divided by 4;
the ground squad's order kind is HoldWall when the wall exists, else Hold —
while the flying squad's order is built with SquadOrderTypes::Hold in either
case (line 494).  Returns (ground order, flying order). -/
def defensiveAttackOrders (st : DefenseOrderState) : SquadOrderM × SquadOrderM :=
  let basePos := if st.naturalExists && st.naturalOwnedByMe then st.naturalPos else st.mainPos
  let defendPosition := if st.wallExists then st.wallGapCenter else basePos
  let radius := if st.wallExists then DefensivePositionRadius / 4 else DefensivePositionRadius
  (⟨if st.wallExists then .holdWallOrd else .holdOrd, defendPosition, radius, "Hold the wall"⟩,
   ⟨.holdOrd, defendPosition, radius, "Hold the wall"⟩)

/-- A defensive-posture state with an existing wall for claim C9. -/
def c9State : DefenseOrderState := ⟨true, true, (10, 10), (0, 0), true, (5, 5)⟩

/-- Claim C9 counterexample: the claim says that when the wall exists the
directive kind of BOTH squads becomes hold-against-wall; in the source the
flying squad's directive kind stays plain Hold even with the wall. -/
theorem C9_flying_squad_not_holdwall :
    c9State.wallExists = true ∧
    (defensiveAttackOrders c9State).2.otype = .holdOrd ∧
    (defensiveAttackOrders c9State).2.otype ≠ .holdWallOrd := by
  decide

/-- Claim C9 (amended): under a defensive posture both main attack squads are
directed at the natural expansion if owned, else the main base, with radius
400; when the wall exists both squads target the wall's gap center with the
radius quartered (100), and the GROUND squad's directive kind becomes
hold-against-wall while the FLYING squad's directive kind remains plain Hold. -/
theorem C9_defensive_orders (st : DefenseOrderState) :
    (defensiveAttackOrders st).1.otype
        = (if st.wallExists then OrderType.holdWallOrd else OrderType.holdOrd) ∧
    (defensiveAttackOrders st).2.otype = OrderType.holdOrd ∧
    (st.wallExists = false →
      (defensiveAttackOrders st).1.pos
          = (if st.naturalExists && st.naturalOwnedByMe then st.naturalPos else st.mainPos) ∧
      (defensiveAttackOrders st).2.pos
          = (if st.naturalExists && st.naturalOwnedByMe then st.naturalPos else st.mainPos) ∧
      (defensiveAttackOrders st).1.radius = DefensivePositionRadius ∧
      (defensiveAttackOrders st).2.radius = DefensivePositionRadius) ∧
    (st.wallExists = true →
      (defensiveAttackOrders st).1.pos = st.wallGapCenter ∧
      (defensiveAttackOrders st).2.pos = st.wallGapCenter ∧
      (defensiveAttackOrders st).1.radius = DefensivePositionRadius / 4 ∧
      (defensiveAttackOrders st).2.radius = DefensivePositionRadius / 4) := by
  cases hw : st.wallExists <;>
    simp [defensiveAttackOrders, hw]

/-- Claim C9 witness: the amended theorem applied at the concrete state with
an existing wall. -/
theorem C9_defensive_orders_witness :
    c9State.wallExists = true ∧
    ((defensiveAttackOrders c9State).1.pos = c9State.wallGapCenter ∧
     (defensiveAttackOrders c9State).2.pos = c9State.wallGapCenter ∧
     (defensiveAttackOrders c9State).1.radius = DefensivePositionRadius / 4 ∧
     (defensiveAttackOrders c9State).2.radius = DefensivePositionRadius / 4) :=
  ⟨rfl, (C9_defensive_orders c9State).2.2.2 rfl⟩

/-! ### Attack location waterfall (CombatCommander::getAttackLocation, lines
1241-1358) -/

/-- BWAPI races in scope. -/
inductive Race
  | terran | protoss | zerg | unknownR
deriving DecidableEq, Repr

/-- Squad capability summary (lines 1256-1266). -/
structure SquadCaps where
  hasGround : Bool
  hasAir : Bool
  canAttackAir : Bool
  canAttackGround : Bool
deriving DecidableEq, Repr

/-- A nearby enemy from InformationManager::getNearbyForce: its type together
with the type-derived capability flags the scoring loop queries
(UnitUtil::TypeCanAttackGround / TypeCanAttackAir are external collaborators,
carried as fields). -/
structure NearEnemy where
  etype : UnitTypeE
  isBuilding : Bool
  canAtkGround : Bool
  canAtkAir : Bool
deriving DecidableEq, Repr

/-- A base location: whether the enemy owns it, its position, and the nearby
enemy force within 600. -/
structure BaseInfo where
  enemyOwned : Bool
  pos : Pos
  nearby : List NearEnemy
deriving DecidableEq, Repr

/-- A remembered enemy unit record from InformationManager::getUnitInfo, in
map iteration order. -/
structure UIInfo where
  isBuilding : Bool
  lastPosValid : Bool
  gone : Bool
  lastPos : Pos
deriving DecidableEq, Repr

/-- A currently visible enemy unit (lines 1340-1354). -/
structure VisEnemy where
  etype : UnitTypeE
  uexists : Bool
  detected : Bool
  posValid : Bool
  flying : Bool
  pos : Pos
deriving DecidableEq, Repr

/-- State consumed by getAttackLocation: the requesting squad's capabilities
(none for a null squad), the base locations, the enemy race, the remembered
enemy unit records, the visible enemy units, and the two possible results of
MapGrid::getLeastExplored. -/
structure AttackLocState where
  squad : Option SquadCaps
  bases : List BaseInfo
  enemyRace : Race
  enemyUnitInfo : List UIInfo
  visibleEnemies : List VisEnemy
  leastExploredGroundOnly : Pos
  leastExploredAny : Pos
deriving DecidableEq, Repr

/-- The counting condition of the base-scoring loop (lines 1283-1298): a
building or slow defensive type that can engage the squad's profile.  The
source's third disjunct `enemy.type == enemy.type == Protoss_High_Templar`
parses as a bool compared against a unit type, two constants that never
agree, so it never holds and contributes nothing. -/
def countsAgainstBase (caps : SquadCaps) (e : NearEnemy) : Bool :=
  (e.isBuilding || decide (e.etype = .siegeTankTankMode)
    || decide (e.etype = .siegeTankSiegeMode) || decide (e.etype = .reaver)
    || decide (e.etype = .lurker) || decide (e.etype = .guardian)) &&
  (caps.hasGround && e.canAtkGround || caps.hasAir && e.canAtkAir)

/-- Heuristic defense score of one base (0 or negative, lines 1278-1299). -/
def baseDefenseScore (caps : SquadCaps) (b : BaseInfo) : Int :=
  b.nearby.foldl (fun s e => if countsAgainstBase caps e then s - 1 else s) 0

/-- Step 1 of the waterfall (lines 1270-1321): the enemy-owned base with the
best defense score, tracked against bestScore initialized to -99999. -/
def bestEnemyBase (caps : SquadCaps) (bases : List BaseInfo) : Option Pos :=
  (bases.foldl
    (fun acc b =>
      if b.enemyOwned then
        if baseDefenseScore caps b > acc.2 then (some b.pos, baseDefenseScore caps b) else acc
      else acc)
    ((none : Option Pos), (-99999 : Int))).1

/-- Default capability profile when no squad is passed (lines 1256-1259). -/
def defaultCaps : SquadCaps := ⟨true, false, false, true⟩

/-- Step 2 predicate (line 1331): a remembered building with a valid last
position not flagged as vacated. -/
def uiRemembered (ui : UIInfo) : Bool := ui.isBuilding && ui.lastPosValid && !ui.gone

/-- Step 3 predicate (lines 1342-1353): a visible, detected, valid, non-larva
enemy matching the squad's attack capability. -/
def visTarget (caps : SquadCaps) (u : VisEnemy) : Bool :=
  !(decide (u.etype = .larva)) && u.uexists && u.detected && u.posValid &&
  (u.flying && caps.canAttackAir || !u.flying && caps.canAttackGround)

/-- CombatCommander::getAttackLocation (lines 1241-1358): (1) weakest enemy
base, only if the squad can attack ground; (2) remembered enemy building, if
the squad can attack ground OR the enemy race is Terran (lifted buildings);
(3) first suitable visible enemy; (4) the least-explored location, air-only
unless the squad has ground presence without air. -/
def getAttackLocation (st : AttackLocState) : Pos :=
  let caps := match st.squad with
    | some c => c
    | none => defaultCaps
  match (if caps.canAttackGround then bestEnemyBase caps st.bases else none) with
  | some p => p
  | none =>
    match (if caps.canAttackGround || decide (st.enemyRace = Race.terran) then
        (st.enemyUnitInfo.find? uiRemembered).map (fun ui => ui.lastPos)
      else none) with
    | some p => p
    | none =>
      match (st.visibleEnemies.find? (visTarget caps)).map (fun u => u.pos) with
      | some p => p
      | none =>
        if caps.hasGround && !caps.hasAir then st.leastExploredGroundOnly
        else st.leastExploredAny

/-- Claim C10: for a squad that cannot attack ground, step 1 is skipped
entirely, and when the enemy race is Terran the remembered-building step
still runs (the gate is canAttackGround OR enemy-is-Terran): the first
remembered enemy building with a valid, not-vacated last position becomes the
attack location. -/
theorem C10_air_squad_terran_remembered_building (st : AttackLocState)
    (caps : SquadCaps) (ui : UIInfo)
    (hsq : st.squad = some caps)
    (hng : caps.canAttackGround = false)
    (hrace : st.enemyRace = Race.terran)
    (hfind : st.enemyUnitInfo.find? uiRemembered = some ui) :
    getAttackLocation st = ui.lastPos := by
  unfold getAttackLocation
  rw [hsq]
  simp [hng, hrace, hfind]

/-- The remembered Terran building for the C10 witness. -/
def c10UI : UIInfo := ⟨true, true, false, (42, 7)⟩

/-- The C10 witness state: a pure air squad that cannot attack ground, an
enemy-owned base on the map (step 1 is skipped anyway), a Terran enemy and
one remembered building. -/
def c10State : AttackLocState :=
  ⟨some ⟨false, true, true, false⟩, [⟨true, (9, 9), []⟩], .terran, [c10UI],
   [], (0, 0), (1, 1)⟩

/-- Claim C10 witness: the theorem applied at the concrete state; the result
is the remembered building's last position. -/
theorem C10_air_squad_witness :
    getAttackLocation c10State = c10UI.lastPos :=
  C10_air_squad_terran_remembered_building c10State ⟨false, true, true, false⟩ c10UI
    rfl rfl rfl (by decide)

end Locutus
